import Mathlib

/-!
Verification of the `ellm` command-line client (Rust) against its
natural-language specification.  The definitions below are a shallow
embedding of the relevant source code:

* `src/client.rs` — `Message`, `Messages` (push_user / push_assistant),
  client error classification by HTTP status;
* `src/error.rs` — the error taxonomy (`ApiError`, `ClaudeError`);
* `src/main.rs` — the schema-guided retry engine `send_with_json_retry`,
  the domain types `Book` / `Series` / `BookResponse` with their serde
  decoding, the theme aggregation and top-5 selection of the `book`
  subcommand, and the API-key masking of `show_config`.

Machine integers are modelled as `Int` with explicit two's-complement
wrapping (`wrap16`) where the source uses `i16` arithmetic.  Fallible
operations return `Except` / `Option`; a Rust panic is modelled as
`Option.none`.
-/

namespace Ellm

/-! ### Messages (src/client.rs lines 26-65) -/

/-- One conversational turn, `Message { role, content }` in `client.rs`. -/
structure Message where
  role : String
  content : String
deriving DecidableEq

/-- The `Messages` wrapper around `Vec<Message>` in `client.rs`. -/
structure Messages where
  msgs : List Message
deriving DecidableEq

def Messages.new : Messages := ⟨[]⟩

/-- `Messages::push_user` appends a `user` turn (client.rs lines 48-55). -/
def Messages.push_user (m : Messages) (content : String) : Messages :=
  ⟨m.msgs ++ [⟨"user", content⟩]⟩

/-- `Messages::push_assistant` appends an `assistant` turn (client.rs lines 57-64). -/
def Messages.push_assistant (m : Messages) (content : String) : Messages :=
  ⟨m.msgs ++ [⟨"assistant", content⟩]⟩

/-! ### Error taxonomy (src/error.rs) -/

/-- `ApiError` from `error.rs` lines 45-60. -/
inductive ApiError where
  | invalidRequest (msg : String)
  | authenticationFailed (msg : String)
  | rateLimitExceeded
  | apiError (status : Nat) (msg : String)
  | unexpectedResponse (msg : String)
deriving DecidableEq

/-- `ClaudeError` from `error.rs` lines 5-25 (payloads flattened to the
message strings that matter to the claims). -/
inductive ClaudeError where
  | config (msg : String)
  | api (e : ApiError)
  | network (msg : String)
  | json (msg : String)
  | io (msg : String)
deriving DecidableEq

/-- How `Client::send_message` classifies a non-success HTTP status whose
body parsed as an `ErrorResponse` (client.rs lines 161-173):
401 → authentication failure, 429 → rate limit, otherwise a generic API
error carrying status and message. -/
def classifyFailureStatus (status : Nat) (msg : String) : ApiError :=
  if status = 401 then .authenticationFailed msg
  else if status = 429 then .rateLimitExceeded
  else .apiError status msg

/-! ### Lead re-insertion (src/main.rs lines 169-173) -/

/-- The seed forced at the start of the model's reply (`let lead = "{"`,
main.rs line 169). -/
def lead : String := "\x7b"

/-- Rust's `String::insert_str(idx, t)`: splice `t` into `s` at `idx`.
The source calls it with `idx = 0` (main.rs line 173). -/
def insertStrAt (s : String) (idx : Nat) (t : String) : String :=
  String.mk (s.data.take idx ++ t.data ++ s.data.drop idx)

/-- The candidate document built from a transport reply:
`response.insert_str(0, lead)` (main.rs line 173). -/
def withLead (response : String) : String :=
  insertStrAt response 0 lead

/-- The feedback text appended on a schema mismatch:
`format!("response did not match schema: {}", error)` (main.rs line 194). -/
def schemaMismatchMsg (e : String) : String :=
  "response did not match schema: " ++ e

/-! ### The schema-guided retry engine (src/main.rs lines 144-201)

The engine is generic over the JSON pre-validator (`json::parse`) and the
strict decoder (`serde_json::from_str::<T>`), exactly as it is generic
over `T` in the source; the transport is an oracle giving the outcome of
the `i`-th `client.send_message` call.  The outcome records the number of
transport calls performed and the final message log, which are the
observable effects of an episode. -/

/-- Result of one episode of the retry engine. -/
inductive EngineOutcome (T : Type) where
  | ok (value : T) (calls : Nat) (messages : Messages)
  | transportErr (e : ClaudeError) (calls : Nat) (messages : Messages)
  | exhausted (calls : Nat) (messages : Messages)
deriving DecidableEq

/-- Number of transport calls performed in an episode. -/
def EngineOutcome.calls {T : Type} : EngineOutcome T → Nat
  | .ok _ c _ => c
  | .transportErr _ c _ => c
  | .exhausted c _ => c

/-- Did the episode end with the terminal exhausted-retries error
(`anyhow!("failed to get valid response despite retries")`, main.rs 200)? -/
def EngineOutcome.isExhausted {T : Type} : EngineOutcome T → Bool
  | .exhausted _ _ => true
  | _ => false

/-- Did the episode yield a decoded value? -/
def EngineOutcome.isOk {T : Type} : EngineOutcome T → Bool
  | .ok _ _ _ => true
  | _ => false

/-- The `'retry: for _retry in 0..max_retries` loop of
`send_with_json_retry` (main.rs lines 167-198), with the remaining
iteration count as the first argument and the number of transport calls
already made as the second.  Each iteration: call the transport (a
transport error propagates via `?`), re-prepend the lead, pre-validate as
generic JSON (on failure push the candidate as an assistant turn and the
diagnostic as a user turn, continue), then strictly decode (on success
return, on failure push the candidate and the schema-mismatch feedback,
continue). -/
def send_with_json_retry_go {T : Type}
    (validate : String → Except String Unit)
    (decode : String → Except String T)
    (transport : Nat → Except ClaudeError String) :
    Nat → Nat → Messages → EngineOutcome T
  | 0, calls, msgs => .exhausted calls msgs
  | n + 1, calls, msgs =>
    match transport calls with
    | .error e => .transportErr e (calls + 1) msgs
    | .ok response =>
      match validate (withLead response) with
      | .error e =>
        send_with_json_retry_go validate decode transport n (calls + 1)
          ((msgs.push_assistant (withLead response)).push_user e)
      | .ok _ =>
        match decode (withLead response) with
        | .ok r => .ok r (calls + 1) msgs
        | .error e =>
          send_with_json_retry_go validate decode transport n (calls + 1)
            ((msgs.push_assistant (withLead response)).push_user (schemaMismatchMsg e))

/-- `send_with_json_retry` (main.rs lines 144-201): run the retry loop
for `max_retries` iterations starting from zero transport calls. -/
def send_with_json_retry {T : Type}
    (validate : String → Except String Unit)
    (decode : String → Except String T)
    (transport : Nat → Except ClaudeError String)
    (messages : Messages) (max_retries : Nat) : EngineOutcome T :=
  send_with_json_retry_go validate decode transport max_retries 0 messages

/-- Does one transport reply fail validation (either malformed JSON or a
schema mismatch of the lead-prepended candidate)? -/
def attemptFails {T : Type}
    (validate : String → Except String Unit)
    (decode : String → Except String T) (response : String) : Bool :=
  match validate (withLead response) with
  | .error _ => true
  | .ok _ =>
    match decode (withLead response) with
    | .error _ => true
    | .ok _ => false

/-! ### JSON values and serde decoding of the domain types
(src/main.rs lines 94-127)

`serde_json::from_str::<T>` first parses the candidate text into a JSON
value and then deserializes that value; the behaviour the claims are
about lives in the deserialization, modelled here on parsed values. -/

/-- A parsed JSON document (numbers restricted to the integers, which is
all the domain types consume). -/
inductive Json where
  | null
  | bool (b : Bool)
  | num (n : Int)
  | str (s : String)
  | arr (items : List Json)
  | obj (fields : List (String × Json))

/-- `struct Book` (main.rs lines 94-103); the `schemars` range attribute
annotates `score` with `[-2, 2]` in the generated schema. -/
structure Book where
  title : String
  authors : List String
  score : Int
  themes : List String
deriving DecidableEq

/-- `struct Series` (main.rs lines 105-114); the `schemars` range
attribute annotates `score` with `[-1, 1]` in the generated schema. -/
structure Series where
  title : String
  authors : List String
  score : Option Int
  books : List Book
deriving DecidableEq

/-- `struct BookResponse` (main.rs lines 116-121). -/
structure BookResponse where
  books : List Book
  series : List Series
deriving DecidableEq

/-- First binding of a field name in a JSON object. -/
def getField : List (String × Json) → String → Option Json
  | [], _ => none
  | (k, v) :: rest, name => if k = name then some v else getField rest name

def decodeString : Json → Except String String
  | .str s => .ok s
  | _ => .error "invalid type: expected a string"

def decodeStringList : Json → Except String (List String)
  | .arr items => items.mapM decodeString
  | _ => .error "invalid type: expected a sequence"

/-- serde deserialization of an `i8` field: any integer in the machine
range of `i8` is accepted.  The `schemars` range attribute on the struct
shapes only the generated schema text sent to the model; it is not
consulted by `serde_json::from_str`. -/
def decodeI8 : Json → Except String Int
  | .num n =>
    if -128 ≤ n ∧ n ≤ 127 then .ok n
    else .error "invalid value: out of range integral type conversion attempted"
  | _ => .error "invalid type: expected i8"

/-- serde deserialization of an `Option<i8>` field (`null` maps to
`None`). -/
def decodeOptI8 : Json → Except String (Option Int)
  | .null => .ok none
  | j => (decodeI8 j).map some

/-- Look up a required field, failing like serde's missing-field error. -/
def reqField (fields : List (String × Json)) (name : String) : Except String Json :=
  match getField fields name with
  | some j => .ok j
  | none => .error ("missing field `" ++ name ++ "`")

/-- `serde_json::from_str::<Book>` on a parsed value. -/
def decodeBook : Json → Except String Book
  | .obj fields => do
    let tj ← reqField fields "title"
    let title ← decodeString tj
    let aj ← reqField fields "authors"
    let authors ← decodeStringList aj
    let sj ← reqField fields "score"
    let score ← decodeI8 sj
    let thj ← reqField fields "themes"
    let themes ← decodeStringList thj
    Except.ok ⟨title, authors, score, themes⟩
  | _ => .error "invalid type: expected struct Book"

/-- `serde_json::from_str::<Series>` on a parsed value; a missing
`score` field defaults to `None` as serde does for `Option` fields. -/
def decodeSeries : Json → Except String Series
  | .obj fields => do
    let tj ← reqField fields "title"
    let title ← decodeString tj
    let aj ← reqField fields "authors"
    let authors ← decodeStringList aj
    let score ← (match getField fields "score" with
      | none => Except.ok (none : Option Int)
      | some j => decodeOptI8 j)
    let bj ← reqField fields "books"
    let books ← (match bj with
      | .arr items => items.mapM decodeBook
      | _ => Except.error "invalid type: expected a sequence")
    Except.ok ⟨title, authors, score, books⟩
  | _ => .error "invalid type: expected struct Series"

/-! ### Theme aggregation and selection (src/main.rs lines 215-248) -/

/-- Two's-complement wrap into the `i16` range, modelling Rust
release-mode overflow semantics of the tally's `i16` arithmetic. -/
def wrap16 (n : Int) : Int := (n + 32768) % 65536 - 32768

/-- All books contributing to the tally: the direct books chained with
the books nested under each series (main.rs lines 221-226). -/
def allBooks (r : BookResponse) : List Book :=
  r.books ++ (r.series.map Series.books).flatten

/-- `let value = themes.entry(theme.clone()).or_insert(0);
*value += book.score as i16` (main.rs lines 229-230), on the
association-list view of the hash map: update the existing entry or
append a fresh one. -/
def tallyAdd : List (String × Int) → String → Int → List (String × Int)
  | [], theme, score => [(theme, wrap16 score)]
  | (k, v) :: rest, theme, score =>
    if k = theme then (k, wrap16 (v + score)) :: rest
    else (k, v) :: tallyAdd rest theme score

/-- The inner loop over one book's themes (main.rs lines 228-231). -/
def tallyBook (acc : List (String × Int)) (b : Book) : List (String × Int) :=
  b.themes.foldl (fun acc' theme => tallyAdd acc' theme b.score) acc

/-- The full tally over every contributing book (main.rs lines 220-232).
The list is in first-insertion order; the real `HashMap` iterates its
entries in an unspecified, run-dependent order, which the selection
theorems model by quantifying over permutations of this list. -/
def tallyAll (r : BookResponse) : List (String × Int) :=
  (allBooks r).foldl tallyBook []

/-- Value associated with a theme in a tally (0 when absent, matching
`or_insert(0)`). -/
def tallyGet : List (String × Int) → String → Int
  | [], _ => 0
  | (k, v) :: rest, theme => if k = theme then v else tallyGet rest theme

/-- The sort key `-score` computed in `i16` (main.rs line 235); the
negation wraps at `i16::MIN`. -/
def sortKey (v : Int) : Int := wrap16 (-v)

/-- Stable insertion of one entry into a list sorted ascending by
`sortKey`: entries with equal keys keep the incoming entry first,
matching the stability of Rust's `sort_by_key`. -/
def insertByKey (p : String × Int) : List (String × Int) → List (String × Int)
  | [] => [p]
  | q :: l => if sortKey p.2 ≤ sortKey q.2 then p :: q :: l else q :: insertByKey p l

/-- `collected.sort_by_key(|&(_theme, score)| -score)` (main.rs line
235): a stable sort ascending by the wrapped negated score. -/
def rankThemes (entries : List (String × Int)) : List (String × Int) :=
  entries.foldr insertByKey []

/-- `let top_count = collected.len().min(5)` and the slice
`collected[..top_count]` mapped to its theme names (main.rs lines
240-244). -/
def selectedThemes (entries : List (String × Int)) : List String :=
  ((rankThemes entries).take (min (rankThemes entries).length 5)).map Prod.fst

/-- Occurrence-weighted contribution of one book to one theme: the inner
loop adds `book.score` once per occurrence of the theme in
`book.themes`. -/
def occScore (b : Book) (theme : String) : Int :=
  (b.themes.count theme : Int) * b.score

/-- Occurrence-weighted sum of scores over a list of books. -/
def themeOccSum (bs : List Book) (theme : String) : Int :=
  (bs.map (fun b => occScore b theme)).sum

/-- Modelled from the claim's words, for comparison with the source's
behaviour: "the additive sum of the scores of every book listing that
theme", each book counted once whether or not it repeats the theme. -/
def specSumOfBooksListing (bs : List Book) (theme : String) : Int :=
  ((bs.filter (fun b => b.themes.contains theme)).map Book.score).sum

/-- The two-book example from the spec's theme-aggregation property. -/
def exampleBookResponse : BookResponse :=
  ⟨[⟨"b1", [], 2, ["war"]⟩, ⟨"b2", [], -1, ["war", "peace"]⟩], []⟩

/-- A single book that lists the same theme twice. -/
def duplicateThemeResponse : BookResponse :=
  ⟨[⟨"d1", [], 2, ["war", "war"]⟩], []⟩

/-- Six books whose six distinct themes all tie at aggregate score 1. -/
def tiedThemesResponse : BookResponse :=
  ⟨[⟨"t1", [], 1, ["a"]⟩, ⟨"t2", [], 1, ["b"]⟩, ⟨"t3", [], 1, ["c"]⟩,
    ⟨"t4", [], 1, ["d"]⟩, ⟨"t5", [], 1, ["e"]⟩, ⟨"t6", [], 1, ["f"]⟩], []⟩

/-! ### API-key masking in `show_config` (src/main.rs lines 61-68) -/

/-- UTF-8 byte length of a string's characters, Rust's `String::len`. -/
def utf8Len (l : List Char) : Nat := (l.map Char.utf8Size).sum

/-- Rust's `str::is_char_boundary`: a byte index is a boundary iff it is
0, the total byte length, or the first byte of a character. -/
def isCharBoundary : List Char → Nat → Bool
  | _, 0 => true
  | [], _ + 1 => false
  | c :: rest, i + 1 =>
    if i + 1 < c.utf8Size then false
    else isCharBoundary rest (i + 1 - c.utf8Size)

/-- The characters making up the first `i` bytes of a string (meaningful
when `i` is a character boundary). -/
def takeByBytes : List Char → Nat → List Char
  | [], _ => []
  | c :: rest, i => if i = 0 then [] else c :: takeByBytes rest (i - c.utf8Size)

/-- The key slice `show_config` prints before the `***` mask:
`&config.api_key[..10.min(config.api_key.len())]` (main.rs lines 65-68).
Rust slices by byte index; when `10.min(len)` is not a character
boundary the indexing panics, modelled as `none`. -/
def apiKeyShown (api_key : String) : Option String :=
  let i := min 10 (utf8Len api_key.data)
  if isCharBoundary api_key.data i then
    some (String.mk (takeByBytes api_key.data i))
  else none

/-! ### Step lemmas for the retry loop -/

theorem go_zero {T : Type} (validate : String → Except String Unit)
    (decode : String → Except String T) (transport : Nat → Except ClaudeError String)
    (calls : Nat) (msgs : Messages) :
    send_with_json_retry_go validate decode transport 0 calls msgs
      = .exhausted calls msgs := rfl

theorem go_transport_err {T : Type} {validate : String → Except String Unit}
    {decode : String → Except String T} {transport : Nat → Except ClaudeError String}
    {n calls : Nat} {msgs : Messages} {e : ClaudeError}
    (ht : transport calls = .error e) :
    send_with_json_retry_go validate decode transport (n + 1) calls msgs
      = .transportErr e (calls + 1) msgs := by
  simp [send_with_json_retry_go, ht]

theorem go_json_fail {T : Type} {validate : String → Except String Unit}
    {decode : String → Except String T} {transport : Nat → Except ClaudeError String}
    {n calls : Nat} {msgs : Messages} {r e : String}
    (ht : transport calls = .ok r) (hv : validate (withLead r) = .error e) :
    send_with_json_retry_go validate decode transport (n + 1) calls msgs
      = send_with_json_retry_go validate decode transport n (calls + 1)
          ((msgs.push_assistant (withLead r)).push_user e) := by
  simp [send_with_json_retry_go, ht, hv]

theorem go_decode_ok {T : Type} {validate : String → Except String Unit}
    {decode : String → Except String T} {transport : Nat → Except ClaudeError String}
    {n calls : Nat} {msgs : Messages} {r : String} {val : T}
    (ht : transport calls = .ok r) (hv : validate (withLead r) = .ok ())
    (hd : decode (withLead r) = .ok val) :
    send_with_json_retry_go validate decode transport (n + 1) calls msgs
      = .ok val (calls + 1) msgs := by
  simp [send_with_json_retry_go, ht, hv, hd]

theorem go_decode_fail {T : Type} {validate : String → Except String Unit}
    {decode : String → Except String T} {transport : Nat → Except ClaudeError String}
    {n calls : Nat} {msgs : Messages} {r e : String}
    (ht : transport calls = .ok r) (hv : validate (withLead r) = .ok ())
    (hd : decode (withLead r) = .error e) :
    send_with_json_retry_go validate decode transport (n + 1) calls msgs
      = send_with_json_retry_go validate decode transport n (calls + 1)
          ((msgs.push_assistant (withLead r)).push_user (schemaMismatchMsg e)) := by
  simp [send_with_json_retry_go, ht, hv, hd]

/-- If every one of the next `n` transport calls succeeds at the transport
level but fails validation, the loop runs all `n` remaining iterations and
ends exhausted, having made exactly `n` further transport calls. -/
theorem go_exhausts {T : Type} (validate : String → Except String Unit)
    (decode : String → Except String T) (transport : Nat → Except ClaudeError String) :
    ∀ (n calls : Nat) (msgs : Messages),
      (∀ i, i < n → ∃ r, transport (calls + i) = .ok r
        ∧ attemptFails validate decode r = true) →
      ∃ ms, send_with_json_retry_go validate decode transport n calls msgs
        = .exhausted (calls + n) ms := by
  intro n
  induction n with
  | zero => exact fun calls msgs _ => ⟨msgs, rfl⟩
  | succ n ih =>
    intro calls msgs h
    obtain ⟨r, hr, hfail⟩ := h 0 (Nat.succ_pos n)
    rw [Nat.add_zero] at hr
    have h' : ∀ i, i < n → ∃ r, transport (calls + 1 + i) = .ok r
        ∧ attemptFails validate decode r = true := by
      intro i hi
      have h2 := h (i + 1) (Nat.succ_lt_succ hi)
      rwa [show calls + (i + 1) = calls + 1 + i by omega] at h2
    unfold attemptFails at hfail
    cases hv : validate (withLead r) with
    | error e =>
      obtain ⟨ms, hms⟩ := ih (calls + 1)
        ((msgs.push_assistant (withLead r)).push_user e) h'
      exact ⟨ms, by rw [go_json_fail hr hv, hms]; congr 1; omega⟩
    | ok u =>
      cases u
      cases hd : decode (withLead r) with
      | error e =>
        obtain ⟨ms, hms⟩ := ih (calls + 1)
          ((msgs.push_assistant (withLead r)).push_user (schemaMismatchMsg e)) h'
        exact ⟨ms, by rw [go_decode_fail hr hv hd, hms]; congr 1; omega⟩
      | ok val => rw [hv, hd] at hfail; simp at hfail

/-- The loop never performs more transport calls than it has remaining
iterations. -/
theorem go_calls_le {T : Type} (validate : String → Except String Unit)
    (decode : String → Except String T) (transport : Nat → Except ClaudeError String) :
    ∀ (n calls : Nat) (msgs : Messages),
      (send_with_json_retry_go validate decode transport n calls msgs).calls
        ≤ calls + n := by
  intro n
  induction n with
  | zero => intro calls msgs; simp [go_zero, EngineOutcome.calls]
  | succ n ih =>
    intro calls msgs
    cases ht : transport calls with
    | error e => rw [go_transport_err ht]; simp [EngineOutcome.calls]
    | ok r =>
      cases hv : validate (withLead r) with
      | error e =>
        rw [go_json_fail ht hv]
        calc (send_with_json_retry_go validate decode transport n (calls + 1)
                ((msgs.push_assistant (withLead r)).push_user e)).calls
            ≤ calls + 1 + n := ih (calls + 1) _
          _ = calls + (n + 1) := by omega
      | ok u =>
        cases u
        cases hd : decode (withLead r) with
        | ok val => rw [go_decode_ok ht hv hd]; simp [EngineOutcome.calls]
        | error e =>
          rw [go_decode_fail ht hv hd]
          calc (send_with_json_retry_go validate decode transport n (calls + 1)
                  ((msgs.push_assistant (withLead r)).push_user (schemaMismatchMsg e))).calls
              ≤ calls + 1 + n := ih (calls + 1) _
            _ = calls + (n + 1) := by omega

/-! ### Claim theorems: the retry engine -/

/-- C4: for every transport reply text `r`, the candidate passed to
validation and decoding is exactly the lead `"{"` concatenated with `r`
— the same character data, with nothing dropped or duplicated at the
seam, one character longer than `r`. -/
theorem lead_reinsertion_roundtrip (r : String) :
    withLead r = lead ++ r
  ∧ (withLead r).data = lead.data ++ r.data
  ∧ (withLead r).length = lead.length + r.length := by
  refine ⟨rfl, ?_, ?_⟩
  · simp [withLead, insertStrAt, lead]
  · have h : withLead r = lead ++ r := rfl
    rw [h, String.length_append]

/-- Witness for C4 at a concrete reply text. -/
theorem lead_reinsertion_roundtrip_witness :
    withLead "\x22a\x22: 1\x7d" = lead ++ "\x22a\x22: 1\x7d" :=
  (lead_reinsertion_roundtrip "\x22a\x22: 1\x7d").1

/-- C2: if the transport succeeds on attempt 1 with a reply whose
lead-prepended candidate pre-validates as JSON and strictly decodes to
the target type, the engine returns that decoded value having performed
exactly one transport call, with the message log untouched. -/
theorem retry_first_attempt_success {T : Type}
    (validate : String → Except String Unit) (decode : String → Except String T)
    (transport : Nat → Except ClaudeError String)
    (messages : Messages) (max_retries : Nat) (r : String) (val : T)
    (hpos : 0 < max_retries)
    (ht : transport 0 = .ok r)
    (hv : validate (withLead r) = .ok ())
    (hd : decode (withLead r) = .ok val) :
    send_with_json_retry validate decode transport messages max_retries
      = .ok val 1 messages := by
  obtain ⟨n, rfl⟩ : ∃ n, max_retries = n + 1 := ⟨max_retries - 1, by omega⟩
  exact go_decode_ok ht hv hd

/-- Witness for C2 at a concrete transport and decoder. -/
theorem retry_first_attempt_success_witness :
    send_with_json_retry (fun _ => .ok ()) (fun _ => (.ok true : Except String Bool))
      (fun _ => .ok "\x7d") Messages.new 3 = .ok true 1 Messages.new :=
  retry_first_attempt_success _ _ _ Messages.new 3 "\x7d" true (by decide) rfl rfl rfl

/-- C1: when every one of the `max_retries` attempts comes back from the
transport but fails validation (malformed JSON or schema mismatch), the
engine ends with the terminal exhausted-retries error, performs exactly
`max_retries` transport calls and never more, and yields no value. -/
theorem retry_exhaustion_terminal {T : Type}
    (validate : String → Except String Unit) (decode : String → Except String T)
    (transport : Nat → Except ClaudeError String)
    (messages : Messages) (max_retries : Nat)
    (h : ∀ i, i < max_retries → ∃ r, transport i = .ok r
      ∧ attemptFails validate decode r = true) :
    (send_with_json_retry validate decode transport messages max_retries).isExhausted
      = true
  ∧ (send_with_json_retry validate decode transport messages max_retries).calls
      = max_retries
  ∧ (send_with_json_retry validate decode transport messages max_retries).isOk
      = false := by
  obtain ⟨ms, hms⟩ := go_exhausts validate decode transport max_retries 0 messages
    (by simpa using h)
  unfold send_with_json_retry
  rw [hms]
  simp [EngineOutcome.isExhausted, EngineOutcome.calls, EngineOutcome.isOk]

/-- Witness for C1: a transport that always answers non-JSON text
exhausts all three default attempts. -/
theorem retry_exhaustion_terminal_witness :
    (send_with_json_retry (fun _ => .error "not json")
        (fun _ => (.error "no" : Except String Unit))
        (fun _ => .ok "x") Messages.new 3).isExhausted = true
  ∧ (send_with_json_retry (fun _ => .error "not json")
        (fun _ => (.error "no" : Except String Unit))
        (fun _ => .ok "x") Messages.new 3).calls = 3
  ∧ (send_with_json_retry (fun _ => .error "not json")
        (fun _ => (.error "no" : Except String Unit))
        (fun _ => .ok "x") Messages.new 3).isOk = false :=
  retry_exhaustion_terminal _ _ _ Messages.new 3 (fun _ _ => ⟨"x", rfl, rfl⟩)

/-- C5: each failed attempt appends exactly two turns to the message
sequence before the next attempt — first an assistant turn holding the
raw candidate, then a user turn holding the diagnostic — and the
schema-mismatch user turn is the decode error prefixed with wording
("response did not match schema: ") that the malformed-JSON turn, which
carries the parser diagnostic verbatim, lacks. -/
theorem failed_attempt_appends_feedback {T : Type}
    (validate : String → Except String Unit) (decode : String → Except String T)
    (transport : Nat → Except ClaudeError String)
    (msgs : Messages) (n calls : Nat) (r e : String)
    (ht : transport calls = .ok r) :
    (validate (withLead r) = .error e →
      send_with_json_retry_go validate decode transport (n + 1) calls msgs
        = send_with_json_retry_go validate decode transport n (calls + 1)
            ⟨msgs.msgs ++ [⟨"assistant", withLead r⟩, ⟨"user", e⟩]⟩)
  ∧ (validate (withLead r) = .ok () → decode (withLead r) = .error e →
      send_with_json_retry_go validate decode transport (n + 1) calls msgs
        = send_with_json_retry_go validate decode transport n (calls + 1)
            ⟨msgs.msgs ++ [⟨"assistant", withLead r⟩,
              ⟨"user", schemaMismatchMsg e⟩]⟩)
  ∧ schemaMismatchMsg e = "response did not match schema: " ++ e := by
  refine ⟨fun hv => ?_, fun hv hd => ?_, rfl⟩
  · rw [go_json_fail ht hv]
    congr 1
    simp [Messages.push_assistant, Messages.push_user]
  · rw [go_decode_fail ht hv hd]
    congr 1
    simp [Messages.push_assistant, Messages.push_user]

/-- Witness for C5: one malformed-JSON attempt and one schema-mismatch
attempt, each appending its two feedback turns. -/
theorem failed_attempt_appends_feedback_witness :
    (send_with_json_retry_go (fun _ => .error "oops")
        (fun _ => (.error "no" : Except String Unit)) (fun _ => .ok "bad") 1 0
        Messages.new
      = send_with_json_retry_go (fun _ => .error "oops")
          (fun _ => (.error "no" : Except String Unit)) (fun _ => .ok "bad") 0 1
          ⟨[⟨"assistant", withLead "bad"⟩, ⟨"user", "oops"⟩]⟩)
  ∧ (send_with_json_retry_go (fun _ => .ok ())
        (fun _ => (.error "nope" : Except String Unit)) (fun _ => .ok "bad") 1 0
        Messages.new
      = send_with_json_retry_go (fun _ => .ok ())
          (fun _ => (.error "nope" : Except String Unit)) (fun _ => .ok "bad") 0 1
          ⟨[⟨"assistant", withLead "bad"⟩,
            ⟨"user", schemaMismatchMsg "nope"⟩]⟩) := by
  constructor
  · have h := failed_attempt_appends_feedback (fun _ => .error "oops")
      (fun _ => (.error "no" : Except String Unit)) (fun _ => .ok "bad")
      Messages.new 0 0 "bad" "oops" rfl
    simpa [Messages.new] using h.1 rfl
  · have h := failed_attempt_appends_feedback (fun _ => .ok ())
      (fun _ => (.error "nope" : Except String Unit)) (fun _ => .ok "bad")
      Messages.new 0 0 "bad" "nope" rfl
    simpa [Messages.new] using h.2.1 rfl rfl

/-- C8: a transport-level error on any attempt becomes the episode's
terminal outcome at once: the remaining iterations never run, nothing is
appended to the message sequence, no value is produced, and the client's
status classification maps 401 to an authentication failure, 429 to a
rate-limit failure and any other non-success status to a generic API
error. -/
theorem transport_error_aborts_episode {T : Type}
    (validate : String → Except String Unit) (decode : String → Except String T)
    (transport : Nat → Except ClaudeError String)
    (msgs : Messages) (n calls : Nat) (e : ClaudeError)
    (ht : transport calls = .error e) :
    send_with_json_retry_go validate decode transport (n + 1) calls msgs
      = .transportErr e (calls + 1) msgs
  ∧ (∀ m, classifyFailureStatus 401 m = .authenticationFailed m)
  ∧ (∀ m, classifyFailureStatus 429 m = .rateLimitExceeded)
  ∧ (∀ s m, s ≠ 401 → s ≠ 429 → classifyFailureStatus s m = .apiError s m) := by
  refine ⟨go_transport_err ht, fun m => rfl, fun m => rfl, fun s m h1 h2 => ?_⟩
  simp [classifyFailureStatus, h1, h2]

/-- Witness for C8: a rate-limited first attempt aborts an episode that
still had three attempts available. -/
theorem transport_error_aborts_episode_witness :
    send_with_json_retry_go (fun _ => .ok ())
        (fun _ => (.error "no" : Except String Unit))
        (fun _ => .error (.api .rateLimitExceeded)) 3 0 Messages.new
      = .transportErr (.api .rateLimitExceeded) 1 Messages.new :=
  (transport_error_aborts_episode (fun _ => .ok ())
    (fun _ => (.error "no" : Except String Unit))
    (fun _ => .error (.api .rateLimitExceeded)) Messages.new 2 0
    (.api .rateLimitExceeded) rfl).1

/-- C10: with `max_retries = 0` the engine performs no transport call,
appends nothing, and returns the exhausted-retries error; in general an
episode performs at most `max_retries` transport calls. -/
theorem retry_zero_and_call_bound {T : Type}
    (validate : String → Except String Unit) (decode : String → Except String T)
    (transport : Nat → Except ClaudeError String) (messages : Messages) :
    send_with_json_retry validate decode transport messages 0
      = .exhausted 0 messages
  ∧ ∀ n, (send_with_json_retry validate decode transport messages n).calls ≤ n := by
  refine ⟨rfl, fun n => ?_⟩
  simpa using go_calls_le validate decode transport n 0 messages

/-! ### Claim theorems: domain decoding and configuration display -/

/-- C3 (refuting evaluation): the strict decode step accepts a book
score of 5 — outside the `[-2, 2]` range declared by the `schemars`
attribute — returning it unclamped, and likewise accepts a series score
of 5 outside `[-1, 1]`; the range annotation shapes only the schema text
sent to the model, not the local validation. -/
theorem decode_accepts_out_of_range_scores :
    decodeBook (.obj [("title", .str "t"), ("authors", .arr []),
        ("score", .num 5), ("themes", .arr [])])
      = .ok ⟨"t", [], 5, []⟩
  ∧ decodeSeries (.obj [("title", .str "s"), ("authors", .arr []),
        ("score", .num 5), ("books", .arr [])])
      = .ok ⟨"s", [], some 5, []⟩
  ∧ ¬(-2 ≤ (5 : Int) ∧ (5 : Int) ≤ 2) ∧ ¬(-1 ≤ (5 : Int) ∧ (5 : Int) ≤ 1) :=
  ⟨rfl, rfl, by decide, by decide⟩

/-- C9 (refuting evaluation): `show_config` shows the first 10 bytes of
an ASCII key before the mask, but the byte slice panics (modelled
`none`) on a key whose 10th byte falls inside a multi-byte character —
here nine `a`s followed by `é`. -/
theorem show_config_mask_panics_on_multibyte_key :
    apiKeyShown "sk-ant-key-123" = some "sk-ant-key"
  ∧ apiKeyShown "short" = some "short"
  ∧ apiKeyShown "aaaaaaaaaé" = none :=
  ⟨rfl, rfl, rfl⟩

/-! ### Lemmas for the theme tally -/

theorem wrap16_bounds (n : Int) : -32768 ≤ wrap16 n ∧ wrap16 n ≤ 32767 := by
  unfold wrap16; omega

theorem wrap16_eq_self {n : Int} (h1 : -32768 ≤ n) (h2 : n ≤ 32767) :
    wrap16 n = n := by
  unfold wrap16; omega

theorem wrap16_wrap16_add (a b : Int) : wrap16 (wrap16 a + b) = wrap16 (a + b) := by
  unfold wrap16; omega

theorem tallyGet_tallyAdd_self (t : List (String × Int)) (k : String) (s : Int) :
    tallyGet (tallyAdd t k s) k = wrap16 (tallyGet t k + s) := by
  induction t with
  | nil => simp [tallyAdd, tallyGet]
  | cons p rest ih =>
    obtain ⟨k0, v⟩ := p
    by_cases h0 : k0 = k
    · subst h0; simp [tallyAdd, tallyGet]
    · simp [tallyAdd, tallyGet, h0, ih]

theorem tallyGet_tallyAdd_other (t : List (String × Int)) {k k' : String} (s : Int)
    (h : k' ≠ k) : tallyGet (tallyAdd t k s) k' = tallyGet t k' := by
  have h' : ¬ k = k' := fun he => h he.symm
  induction t with
  | nil => simp [tallyAdd, tallyGet, h']
  | cons p rest ih =>
    obtain ⟨k0, v⟩ := p
    by_cases h0 : k0 = k
    · subst h0; simp [tallyAdd, tallyGet, h']
    · simp [tallyAdd, tallyGet, h0, ih]

theorem tallyAdd_bounds (t : List (String × Int)) (k : String) (s : Int)
    (h : ∀ p ∈ t, -32768 ≤ p.2 ∧ p.2 ≤ 32767) :
    ∀ p ∈ tallyAdd t k s, -32768 ≤ p.2 ∧ p.2 ≤ 32767 := by
  induction t with
  | nil =>
    intro p hp
    simp [tallyAdd] at hp
    rw [hp]
    exact wrap16_bounds s
  | cons q rest ih =>
    intro p hp
    obtain ⟨k0, v⟩ := q
    by_cases h0 : k0 = k
    · subst h0
      simp [tallyAdd] at hp
      rcases hp with hp | hp
      · rw [hp]; exact wrap16_bounds (v + s)
      · exact h p (List.mem_cons_of_mem _ hp)
    · simp [tallyAdd, h0] at hp
      rcases hp with hp | hp
      · rw [hp]; exact h (k0, v) (List.mem_cons_self _ _)
      · exact ih (fun q hq => h q (List.mem_cons_of_mem _ hq)) p hp

theorem tallyGet_bounds (t : List (String × Int)) (k : String)
    (h : ∀ p ∈ t, -32768 ≤ p.2 ∧ p.2 ≤ 32767) :
    -32768 ≤ tallyGet t k ∧ tallyGet t k ≤ 32767 := by
  induction t with
  | nil =>
    rw [show tallyGet [] k = 0 from rfl]
    exact ⟨by decide, by decide⟩
  | cons q rest ih =>
    obtain ⟨k0, v⟩ := q
    by_cases h0 : k0 = k
    · simpa [tallyGet, h0] using h (k0, v) (List.mem_cons_self _ _)
    · simpa [tallyGet, h0] using
        ih (fun q hq => h q (List.mem_cons_of_mem _ hq))

theorem foldl_tallyAdd_bounds (l : List String) (t : List (String × Int)) (s : Int)
    (h : ∀ p ∈ t, -32768 ≤ p.2 ∧ p.2 ≤ 32767) :
    ∀ p ∈ l.foldl (fun acc th => tallyAdd acc th s) t,
      -32768 ≤ p.2 ∧ p.2 ≤ 32767 := by
  induction l generalizing t with
  | nil => simpa using h
  | cons th l ih =>
    simp only [List.foldl_cons]
    exact ih (tallyAdd t th s) (tallyAdd_bounds t th s h)

theorem tallyGet_foldl_themes (l : List String) (t : List (String × Int))
    (θ : String) (s : Int)
    (h : ∀ p ∈ t, -32768 ≤ p.2 ∧ p.2 ≤ 32767) :
    tallyGet (l.foldl (fun acc th => tallyAdd acc th s) t) θ
      = wrap16 (tallyGet t θ + (l.count θ : Int) * s) := by
  induction l generalizing t with
  | nil =>
    simp only [List.foldl_nil, List.count_nil, Int.natCast_zero, zero_mul, add_zero]
    exact (wrap16_eq_self (tallyGet_bounds t θ h).1 (tallyGet_bounds t θ h).2).symm
  | cons th l ih =>
    simp only [List.foldl_cons]
    rw [ih (tallyAdd t th s) (tallyAdd_bounds t th s h)]
    by_cases hth : th = θ
    · subst hth
      rw [tallyGet_tallyAdd_self, wrap16_wrap16_add, List.count_cons]
      simp only [beq_self_eq_true, if_true]
      congr 1
      push_cast
      ring
    · rw [tallyGet_tallyAdd_other t s (Ne.symm hth), List.count_cons]
      have hbeq : (th == θ) = false := beq_eq_false_iff_ne.mpr hth
      simp [hbeq]

theorem tallyBook_bounds (t : List (String × Int)) (b : Book)
    (h : ∀ p ∈ t, -32768 ≤ p.2 ∧ p.2 ≤ 32767) :
    ∀ p ∈ tallyBook t b, -32768 ≤ p.2 ∧ p.2 ≤ 32767 :=
  foldl_tallyAdd_bounds b.themes t b.score h

theorem tallyGet_foldl_books (bs : List Book) (t : List (String × Int)) (θ : String)
    (h : ∀ p ∈ t, -32768 ≤ p.2 ∧ p.2 ≤ 32767) :
    tallyGet (bs.foldl tallyBook t) θ
      = wrap16 (tallyGet t θ + themeOccSum bs θ) := by
  induction bs generalizing t with
  | nil =>
    simp only [List.foldl_nil, themeOccSum, List.map_nil, List.sum_nil, add_zero]
    exact (wrap16_eq_self (tallyGet_bounds t θ h).1 (tallyGet_bounds t θ h).2).symm
  | cons b bs ih =>
    simp only [List.foldl_cons]
    rw [ih (tallyBook t b) (tallyBook_bounds t b h)]
    rw [show tallyBook t b = b.themes.foldl (fun acc th => tallyAdd acc th b.score) t
      from rfl]
    rw [tallyGet_foldl_themes b.themes t θ b.score h, wrap16_wrap16_add]
    congr 1
    simp only [themeOccSum, occScore, List.map_cons, List.sum_cons]
    ring

/-- Closed form of the tally: per theme, the wrapped occurrence-weighted
sum of scores. -/
theorem tallyAll_get (r : BookResponse) (θ : String) :
    tallyGet (tallyAll r) θ = wrap16 (themeOccSum (allBooks r) θ) := by
  unfold tallyAll
  rw [tallyGet_foldl_books (allBooks r) [] θ (by simp)]
  simp [tallyGet]

/-! ### Claim theorems: theme aggregation -/

/-- C6 (amended): the tally maps each theme to the `i16` sum of each
contributing book's score added once per occurrence of the theme in that
book's themes list (for duplicate-free theme lists this is the additive
sum over the books listing the theme); on the spec's example the tally is
war ↦ 1, peace ↦ -1 and ranking by descending score selects
`["war", "peace"]`. -/
theorem theme_tally_characterization :
    (∀ (r : BookResponse) (theme : String),
      tallyGet (tallyAll r) theme = wrap16 (themeOccSum (allBooks r) theme))
  ∧ tallyAll exampleBookResponse = [("war", 1), ("peace", -1)]
  ∧ selectedThemes (tallyAll exampleBookResponse) = ["war", "peace"] :=
  ⟨tallyAll_get, by decide, by decide⟩

/-- C6 counterexample: a single book of score 2 listing the theme "war"
twice gets tallied at 4, while the sum of the scores of the books listing
"war" — what the claim says the tally maps the theme to — is 2. -/
theorem theme_tally_duplicate_counterexample :
    tallyGet (tallyAll duplicateThemeResponse) "war" = 4
  ∧ specSumOfBooksListing (allBooks duplicateThemeResponse) "war" = 2
  ∧ tallyGet (tallyAll duplicateThemeResponse) "war"
      ≠ specSumOfBooksListing (allBooks duplicateThemeResponse) "war" :=
  ⟨by decide, by decide, by decide⟩

/-! ### Lemmas for ranking and selection -/

theorem insertByKey_perm (p : String × Int) (l : List (String × Int)) :
    (insertByKey p l).Perm (p :: l) := by
  induction l with
  | nil => exact List.Perm.refl _
  | cons q l ih =>
    by_cases h : sortKey p.2 ≤ sortKey q.2
    · simp only [insertByKey, if_pos h]
      exact List.Perm.refl _
    · simp only [insertByKey, if_neg h]
      exact (ih.cons q).trans (List.Perm.swap p q l)

theorem rankThemes_perm (l : List (String × Int)) : (rankThemes l).Perm l := by
  induction l with
  | nil => exact List.Perm.refl _
  | cons a l ih =>
    simp only [rankThemes, List.foldr_cons]
    exact (insertByKey_perm a _).trans (ih.cons a)

theorem rankThemes_length (l : List (String × Int)) :
    (rankThemes l).length = l.length := (rankThemes_perm l).length_eq

theorem insertByKey_sorted (p : String × Int) (l : List (String × Int))
    (h : l.Sorted (fun a b => sortKey a.2 ≤ sortKey b.2)) :
    (insertByKey p l).Sorted (fun a b => sortKey a.2 ≤ sortKey b.2) := by
  induction l with
  | nil => simp [insertByKey]
  | cons q l ih =>
    rw [List.sorted_cons] at h
    obtain ⟨hq, hl⟩ := h
    by_cases hpq : sortKey p.2 ≤ sortKey q.2
    · simp only [insertByKey, if_pos hpq]
      rw [List.sorted_cons]
      refine ⟨?_, ?_⟩
      · intro b hb
        rcases List.mem_cons.mp hb with rfl | hb
        · exact hpq
        · exact le_trans hpq (hq b hb)
      · rw [List.sorted_cons]; exact ⟨hq, hl⟩
    · simp only [insertByKey, if_neg hpq]
      rw [List.sorted_cons]
      refine ⟨?_, ih hl⟩
      intro b hb
      have hmem : b ∈ p :: l := (insertByKey_perm p l).mem_iff.mp hb
      rcases List.mem_cons.mp hmem with rfl | hb'
      · exact le_of_not_le hpq
      · exact hq b hb'

theorem rankThemes_sorted (l : List (String × Int)) :
    (rankThemes l).Sorted (fun a b => sortKey a.2 ≤ sortKey b.2) := by
  induction l with
  | nil => simp [rankThemes]
  | cons a l ih =>
    simp only [rankThemes, List.foldr_cons]
    exact insertByKey_sorted a _ ih

/-- The wrapped negation is injective on the whole `i16` range (even at
`i16::MIN`, which is its own wrapped negation). -/
theorem sortKey_inj_on {a b : Int} (ha1 : -32768 ≤ a) (ha2 : a ≤ 32767)
    (hb1 : -32768 ≤ b) (hb2 : b ≤ 32767) (h : sortKey a = sortKey b) : a = b := by
  unfold sortKey wrap16 at h; omega

/-- Away from `i16::MIN` the sort key is plain negation. -/
theorem sortKey_eq_neg {v : Int} (h1 : -32768 < v) (h2 : v ≤ 32767) :
    sortKey v = -v := by
  unfold sortKey wrap16; omega

/-- With pairwise-distinct in-range scores, the ranking is strictly
sorted by the key. -/
theorem rankThemes_sorted_strict (l : List (String × Int))
    (hb : ∀ p ∈ l, -32768 ≤ p.2 ∧ p.2 ≤ 32767)
    (hnd : (l.map Prod.snd).Nodup) :
    (rankThemes l).Sorted (fun a b => sortKey a.2 < sortKey b.2) := by
  have hs1 : ((rankThemes l).map Prod.snd).Nodup :=
    ((rankThemes_perm l).map Prod.snd).nodup_iff.mpr hnd
  have hkey : (((rankThemes l).map Prod.snd).map sortKey).Nodup := by
    refine List.Nodup.map_on ?_ hs1
    intro x hx y hy hxy
    have hxm : x ∈ l.map Prod.snd := ((rankThemes_perm l).map Prod.snd).mem_iff.mp hx
    have hym : y ∈ l.map Prod.snd := ((rankThemes_perm l).map Prod.snd).mem_iff.mp hy
    obtain ⟨px, hpx, rfl⟩ := List.mem_map.mp hxm
    obtain ⟨py, hpy, rfl⟩ := List.mem_map.mp hym
    exact sortKey_inj_on (hb px hpx).1 (hb px hpx).2 (hb py hpy).1 (hb py hpy).2 hxy
  have hne : List.Pairwise (fun a b : String × Int => sortKey a.2 ≠ sortKey b.2)
      (rankThemes l) := by
    have h1 : List.Pairwise (fun a b => a ≠ b)
        (((rankThemes l).map Prod.snd).map sortKey) := hkey
    rw [List.pairwise_map, List.pairwise_map] at h1
    exact h1
  have hle : List.Pairwise (fun a b : String × Int => sortKey a.2 ≤ sortKey b.2)
      (rankThemes l) := rankThemes_sorted l
  exact (hle.and hne).imp fun h => lt_of_le_of_ne h.1 h.2

/-- Two hash-map iteration orders of the same tally with pairwise-distinct
in-range scores rank identically. -/
theorem rankThemes_eq_of_perm (l1 l2 : List (String × Int)) (hp : l1.Perm l2)
    (hb : ∀ p ∈ l1, -32768 ≤ p.2 ∧ p.2 ≤ 32767)
    (hnd : (l1.map Prod.snd).Nodup) :
    rankThemes l1 = rankThemes l2 := by
  have hb2 : ∀ p ∈ l2, -32768 ≤ p.2 ∧ p.2 ≤ 32767 :=
    fun p hp2 => hb p (hp.mem_iff.mpr hp2)
  have hnd2 : (l2.map Prod.snd).Nodup := (hp.map Prod.snd).nodup_iff.mp hnd
  have hperm : (rankThemes l1).Perm (rankThemes l2) :=
    ((rankThemes_perm l1).trans hp).trans (rankThemes_perm l2).symm
  haveI : IsAntisymm (String × Int) (fun a b => sortKey a.2 < sortKey b.2) :=
    ⟨fun a b h1 h2 => absurd (lt_trans h1 h2) (lt_irrefl _)⟩
  exact List.eq_of_perm_of_sorted hperm
    (rankThemes_sorted_strict l1 hb hnd) (rankThemes_sorted_strict l2 hb2 hnd2)

/-! ### Claim theorems: top-N selection -/

/-- C7 (amended): the selection always picks exactly
min(5, number of tally entries) themes; when the tally's scores are
pairwise distinct the selected list is the same for every iteration order
of the map; and for scores above `i16::MIN` (where the wrapping negation
of the sort key would invert the order) the ranking is sorted by
descending score, every selected entry scoring at least every unselected
one.  When scores tie, the result depends on the map's iteration order,
which varies between runs — see the tie counterexample. -/
theorem selection_properties :
    (∀ entries : List (String × Int),
      (selectedThemes entries).length = min entries.length 5)
  ∧ (∀ l1 l2 : List (String × Int), l1.Perm l2 →
      (∀ p ∈ l1, -32768 ≤ p.2 ∧ p.2 ≤ 32767) →
      (l1.map Prod.snd).Nodup →
      selectedThemes l1 = selectedThemes l2)
  ∧ (∀ entries : List (String × Int),
      (∀ p ∈ entries, -32768 < p.2 ∧ p.2 ≤ 32767) →
      (rankThemes entries).Sorted (fun a b => b.2 ≤ a.2)
      ∧ ∀ a ∈ (rankThemes entries).take (min (rankThemes entries).length 5),
        ∀ b ∈ (rankThemes entries).drop (min (rankThemes entries).length 5),
          b.2 ≤ a.2) := by
  refine ⟨?_, ?_, ?_⟩
  · intro entries
    simp only [selectedThemes, List.length_map, List.length_take,
      rankThemes_length]
    omega
  · intro l1 l2 hp hb hnd
    unfold selectedThemes
    rw [rankThemes_eq_of_perm l1 l2 hp hb hnd]
  · intro entries hbnd
    have hdesc : List.Pairwise (fun a b : String × Int => b.2 ≤ a.2)
        (rankThemes entries) := by
      refine List.Pairwise.imp_of_mem ?_ (rankThemes_sorted entries)
      intro a b ha hb hab
      have ha' := hbnd a ((rankThemes_perm entries).mem_iff.mp ha)
      have hb' := hbnd b ((rankThemes_perm entries).mem_iff.mp hb)
      rw [sortKey_eq_neg ha'.1 ha'.2, sortKey_eq_neg hb'.1 hb'.2] at hab
      omega
    exact ⟨hdesc, fun a ha b hb =>
      @List.Pairwise.rel_of_mem_take_of_mem_drop (String × Int)
        (fun a b => b.2 ≤ a.2) (min (rankThemes entries).length 5) a b
        (rankThemes entries) hdesc ha hb⟩

/-- Witness for C7's amended properties at a concrete two-entry tally and
its other iteration order. -/
theorem selection_properties_witness :
    selectedThemes [("x", 3), ("y", 1)] = selectedThemes [("y", 1), ("x", 3)]
  ∧ (rankThemes [("x", 3), ("y", 1)]).Sorted
      (fun a b : String × Int => b.2 ≤ a.2)
  ∧ (selectedThemes [("x", 3), ("y", 1)]).length = min 2 5 := by
  refine ⟨?_, ?_, ?_⟩
  · exact selection_properties.2.1 [("x", 3), ("y", 1)] [("y", 1), ("x", 3)]
      (List.Perm.swap ("y", 1) ("x", 3) []) (by decide) (by decide)
  · exact (selection_properties.2.2 [("x", 3), ("y", 1)] (by decide)).1
  · exact selection_properties.1 [("x", 3), ("y", 1)]

/-- C7 counterexample: a tally of six themes all scoring 1.  Its
first-insertion order and the reverse are both iteration orders of the
same map content (they are permutations of each other), yet they select
two different five-theme lists, so the selection is not deterministic on
ties across runs. -/
theorem selection_tie_nondeterminism :
    (tallyAll tiedThemesResponse).Perm ((tallyAll tiedThemesResponse).reverse)
  ∧ selectedThemes (tallyAll tiedThemesResponse)
      ≠ selectedThemes ((tallyAll tiedThemesResponse).reverse)
  ∧ selectedThemes (tallyAll tiedThemesResponse) = ["a", "b", "c", "d", "e"]
  ∧ selectedThemes ((tallyAll tiedThemesResponse).reverse)
      = ["f", "e", "d", "c", "b"] :=
  ⟨(List.reverse_perm _).symm, by decide, by decide, by decide⟩

end Ellm
